import Mathlib

/-!
Verification of the e2e-tests streaming client and card-resolution engine.

This file gives a shallow embedding of the Python code in
`src/client/api_client.py` and
`src/tests/lawyer_workbench/_support/flow_runner.py`, and proves (or
refutes) the frozen claims about it.  JSON/Python values are modelled by
the inductive type `Py`; Python truthiness, `str()`, `dict.get`,
`or`-defaulting and string normalisation are modelled by executable
functions below.
-/

/-- Model of a Python/JSON value as it appears in the client code
(dicts keep insertion order, as Python dicts do). -/
inductive Py where
  | none
  | bool (b : Bool)
  | int (n : Int)
  | str (s : String)
  | list (xs : List Py)
  | dict (fields : List (String × Py))
deriving Repr

mutual

/-- Decidable equality on `Py` (hand-rolled: the deriving handler does
not support nested inductives). -/
def Py.decEq : (a b : Py) → Decidable (a = b)
  | .none, .none => isTrue rfl
  | .none, .bool _ => isFalse nofun
  | .none, .int _ => isFalse nofun
  | .none, .str _ => isFalse nofun
  | .none, .list _ => isFalse nofun
  | .none, .dict _ => isFalse nofun
  | .bool _, .none => isFalse nofun
  | .bool a, .bool b =>
    if h : a = b then isTrue (by rw [h]) else isFalse (fun hh => h (by injection hh))
  | .bool _, .int _ => isFalse nofun
  | .bool _, .str _ => isFalse nofun
  | .bool _, .list _ => isFalse nofun
  | .bool _, .dict _ => isFalse nofun
  | .int _, .none => isFalse nofun
  | .int _, .bool _ => isFalse nofun
  | .int a, .int b =>
    if h : a = b then isTrue (by rw [h]) else isFalse (fun hh => h (by injection hh))
  | .int _, .str _ => isFalse nofun
  | .int _, .list _ => isFalse nofun
  | .int _, .dict _ => isFalse nofun
  | .str _, .none => isFalse nofun
  | .str _, .bool _ => isFalse nofun
  | .str _, .int _ => isFalse nofun
  | .str a, .str b =>
    if h : a = b then isTrue (by rw [h]) else isFalse (fun hh => h (by injection hh))
  | .str _, .list _ => isFalse nofun
  | .str _, .dict _ => isFalse nofun
  | .list _, .none => isFalse nofun
  | .list _, .bool _ => isFalse nofun
  | .list _, .int _ => isFalse nofun
  | .list _, .str _ => isFalse nofun
  | .list xs, .list ys =>
    match Py.decEqList xs ys with
    | isTrue h => isTrue (by rw [h])
    | isFalse h => isFalse (fun hh => h (by injection hh))
  | .list _, .dict _ => isFalse nofun
  | .dict _, .none => isFalse nofun
  | .dict _, .bool _ => isFalse nofun
  | .dict _, .int _ => isFalse nofun
  | .dict _, .str _ => isFalse nofun
  | .dict _, .list _ => isFalse nofun
  | .dict xs, .dict ys =>
    match Py.decEqFields xs ys with
    | isTrue h => isTrue (by rw [h])
    | isFalse h => isFalse (fun hh => h (by injection hh))

/-- Decidable equality of `Py` lists. -/
def Py.decEqList : (xs ys : List Py) → Decidable (xs = ys)
  | [], [] => isTrue rfl
  | [], _ :: _ => isFalse nofun
  | _ :: _, [] => isFalse nofun
  | x :: xs, y :: ys =>
    match Py.decEq x y, Py.decEqList xs ys with
    | isTrue h1, isTrue h2 => isTrue (by rw [h1, h2])
    | isFalse h1, _ => isFalse (fun hh => h1 (by injection hh))
    | _, isFalse h2 => isFalse (fun hh => h2 (by injection hh))

/-- Decidable equality of `Py` dict entry lists. -/
def Py.decEqFields : (xs ys : List (String × Py)) → Decidable (xs = ys)
  | [], [] => isTrue rfl
  | [], _ :: _ => isFalse nofun
  | _ :: _, [] => isFalse nofun
  | (k1, v1) :: xs, (k2, v2) :: ys =>
    if hk : k1 = k2 then
      match Py.decEq v1 v2, Py.decEqFields xs ys with
      | isTrue h1, isTrue h2 => isTrue (by rw [hk, h1, h2])
      | isFalse h1, _ => isFalse (fun hh => by
          injection hh with hh1 hh2
          injection hh1 with hk1 hv1
          exact h1 hv1)
      | _, isFalse h2 => isFalse (fun hh => by
          injection hh with hh1 hh2
          exact h2 hh2)
    else isFalse (fun hh => by
      injection hh with hh1 hh2
      injection hh1 with hk1 hv1
      exact hk hk1)

end

instance : DecidableEq Py := Py.decEq

/-- Python truthiness (`bool(x)`): None/False/0/""/[]/{} are falsy. -/
def truthy : Py → Bool
  | .none => false
  | .bool b => b
  | .int n => n != 0
  | .str s => s != ""
  | .list xs => !xs.isEmpty
  | .dict kvs => !kvs.isEmpty

/-- Python `a or b`. -/
def pyOr (a b : Py) : Py := if truthy a then a else b

/-- `isinstance(x, dict)`. -/
def isDict : Py → Bool
  | .dict _ => true
  | _ => false

/-- `isinstance(x, list)`. -/
def isList : Py → Bool
  | .list _ => true
  | _ => false

/-- `d.get(k)` on a dict: `some v` when the key is present (its value may
itself be `Py.none`), `Option.none` when absent or when the receiver is
not a dict (callers below only apply it to dicts). -/
def pyGet : Py → String → Option Py
  | .dict kvs, k => kvs.lookup k
  | _, _ => Option.none

/-- `d.get(k, default)`. -/
def pyGetD (d : Py) (k : String) (dflt : Py) : Py := (pyGet d k).getD dflt

/-- Python `str.strip()`: drop leading/trailing whitespace (structural
implementation, so that proofs can evaluate it). -/
def pyStrip (s : String) : String :=
  ⟨((s.data.dropWhile Char.isWhitespace).reverse.dropWhile Char.isWhitespace).reverse⟩

/-- Python `str.lower()` (ASCII; the input types it is applied to are
ASCII identifiers). -/
def pyLower (s : String) : String := ⟨s.data.map Char.toLower⟩

/-- Python `str.upper()` (ASCII; applied to HTTP method names). -/
def pyUpper (s : String) : String := ⟨s.data.map Char.toUpper⟩

/-- A single-quote character, used by the Python `repr` of strings. -/
def squote : String := String.singleton (Char.ofNat 39)

mutual

/-- Python `repr` of a value (used by `str()` on lists/dicts).  String
escaping of quotes/backslashes inside `repr` is not modelled; no claim
in this file depends on the `repr` of a container. -/
def pyRepr : Py → String
  | .none => "None"
  | .bool b => if b then "True" else "False"
  | .int n => toString n
  | .str s => squote ++ s ++ squote
  | .list xs => "[" ++ pyReprList xs ++ "]"
  | .dict kvs => "\x7b" ++ pyReprFields kvs ++ "\x7d"

/-- Comma-joined `repr`s of list elements. -/
def pyReprList : List Py → String
  | [] => ""
  | [x] => pyRepr x
  | x :: xs => pyRepr x ++ ", " ++ pyReprList xs

/-- Comma-joined `repr`s of dict entries. -/
def pyReprFields : List (String × Py) → String
  | [] => ""
  | [(k, v)] => squote ++ k ++ squote ++ ": " ++ pyRepr v
  | (k, v) :: kvs => squote ++ k ++ squote ++ ": " ++ pyRepr v ++ ", " ++ pyReprFields kvs

end

/-- Python `str(x)`. -/
def pyStr : Py → String
  | .none => "None"
  | .bool b => if b then "True" else "False"
  | .int n => toString n
  | .str s => s
  | .list xs => pyRepr (.list xs)
  | .dict kvs => pyRepr (.dict kvs)

/-- `str(d.get(k) or "").strip()` — the idiom the flow runner uses for
every string field of a card/question. -/
def strFieldStrip (d : Py) (k : String) : String :=
  pyStrip (pyStr (pyOr (pyGetD d k Py.none) (.str "")))

/-! ## Card Resolution Engine (`flow_runner.auto_answer_card`) -/

/-- `fk = str(q.get("field_key") or "").strip()`. -/
def fieldKeyOf (q : Py) : String := strFieldStrip q "field_key"

/-- `it = str(q.get("input_type") or q.get("question_type") or "").strip().lower()`. -/
def inputTypeOf (q : Py) : String :=
  pyLower (pyStrip (pyStr (pyOr (pyGetD q "input_type" Py.none)
    (pyOr (pyGetD q "question_type" Py.none) (.str "")))))

/-- `required = bool(q.get("required"))`. -/
def requiredOf (q : Py) : Bool := truthy (pyGetD q "required" Py.none)

/-- `default = q.get("default")`. -/
def defaultOf (q : Py) : Py := pyGetD q "default" Py.none

/-- `_pick_recommended_or_first(options)`: the first option flagged
`recommended is True` with a non-null value, else the first option with a
non-null value, else `None`.  Result `Py.none` models Python `None`. -/
def pick_recommended_or_first (options : List Py) : Py :=
  match options.find? (fun opt =>
      isDict opt && pyGetD opt "recommended" Py.none == Py.bool true
        && pyGetD opt "value" Py.none != Py.none) with
  | some opt => pyGetD opt "value" Py.none
  | Option.none =>
    match options.find? (fun opt => isDict opt && pyGetD opt "value" Py.none != Py.none) with
    | some opt => pyGetD opt "value" Py.none
    | Option.none => Py.none

/-- The nested-override scan of `_resolve_override_value`: the first
override entry `(k, v)` with `k` a non-empty string, `v` a dict,
`field_key` starting with `k ++ "."` and the remaining suffix a non-empty
key of `v`. -/
def nestedOverride (fk : String) : List (String × Py) → Py
  | [] => Py.none
  | (k, v) :: rest =>
    if k != "" && isDict v
        && fk.take (k.length + 1) == k ++ "."
        && fk.drop (k.length + 1) != ""
        && (pyGet v (fk.drop (k.length + 1))).isSome then
      pyGetD v (fk.drop (k.length + 1)) Py.none
    else nestedOverride fk rest

/-- `_resolve_override_value(field_key, overrides)`.  Overrides are a
Python dict, modelled as an ordered association list with unique keys.
An exact hit returns the stored value (even when that value is `None`,
in which case the caller treats it as "no override"); otherwise the
nested dot-path scan runs. -/
def resolve_override_value (fk : String) (overrides : List (String × Py)) : Py :=
  if overrides.isEmpty then Py.none
  else
    match overrides.lookup fk with
    | some v => v
    | Option.none => nestedOverride fk overrides

/-- `has_default` from `auto_answer_card`: the declared default is
non-null and not an empty/whitespace string, empty list or empty dict. -/
def hasDefault : Py → Bool
  | .none => false
  | .str s => pyStrip s != ""
  | .list xs => !xs.isEmpty
  | .dict kvs => !kvs.isEmpty
  | _ => true

/-- The `options` argument computed at the call sites:
`q.get("options") if isinstance(q.get("options"), list) else []`. -/
def optionsOf (q : Py) : List Py :=
  match pyGet q "options" with
  | some (.list xs) => xs
  | _ => []

/-- The three sentences hard-coded for the workflow profile slots. -/
def summarySentence : String := "请根据已提交材料与事实生成案件摘要。"

/-- Hard-coded sentence for `profile.facts`. -/
def factsSentence : String := "已提交事实陈述与材料。"

/-- Hard-coded sentence for `profile.claims`. -/
def claimsSentence : String := "请根据事实与材料整理诉讼请求/需求清单。"

/-- The `value` computed by the `if/elif` chain of `auto_answer_card`
(steps 3–4 of the resolution order: declared default, then the
input-type heuristic).  `Py.none` models Python `None`. -/
def questionValue (skill : String) (uploaded : List String) (q : Py)
    (fk it : String) (required : Bool) : Py :=
  let dflt := defaultOf q
  if it ∈ ["boolean", "bool"] then
    if hasDefault dflt then dflt else .bool true
  else if it ∈ ["select", "single_select", "single_choice"] then
    if hasDefault dflt then dflt else pick_recommended_or_first (optionsOf q)
  else if it ∈ ["multi_select", "multiple_select"] then
    if hasDefault dflt then dflt
    else
      let firstRec := (optionsOf q).find? (fun opt =>
        isDict opt && pyGetD opt "recommended" Py.none == Py.bool true
          && pyGetD opt "value" Py.none != Py.none)
      let picked :=
        match firstRec with
        | some opt => pyGetD opt "value" Py.none
        | Option.none => pick_recommended_or_first (optionsOf q)
      if picked != Py.none then .list [picked] else .list []
  else if it ∈ ["file_ids", "file_id"] || fk == "attachment_file_ids" then
    if fk == "attachment_file_ids" then
      if hasDefault dflt then dflt
      else if !uploaded.isEmpty then .list (uploaded.map Py.str)
      else .list []
    else
      if hasDefault dflt then dflt
      else if !uploaded.isEmpty && (required || skill == "system:kickoff") then
        .list (uploaded.map Py.str)
      else if required then .list [] else Py.none
  else
    if fk == "profile.summary" then .str summarySentence
    else if fk == "profile.facts" then .str factsSentence
    else if fk == "profile.claims" then .str claimsSentence
    else if hasDefault dflt then dflt
    else if required then .str "已确认" else Py.none

/-- The per-question body of the `for q in questions` loop of
`auto_answer_card`: `Option.none` when the question is skipped (not a
dict, empty field key, or optional with no resolved value), otherwise
the `(field_key, value)` of the appended answer. -/
def resolveQuestion (skill : String) (overrides : List (String × Py))
    (uploaded : List String) (q : Py) : Option (String × Py) :=
  if !isDict q then Option.none
  else
    let fk := fieldKeyOf q
    if fk == "" then Option.none
    else
      let it := inputTypeOf q
      let required := requiredOf q
      let ov := resolve_override_value fk overrides
      if ov != Py.none then some (fk, ov)
      else
        let value := questionValue skill uploaded q fk it required
        if value == Py.none && !required then Option.none
        else some (fk, value)

/-- The value steps 3–4 leave for a question (`Py.none` when they leave
Python `None`), with the question's own field key, input type and
required flag plugged in. -/
def resolvedValue (skill : String) (uploaded : List String) (q : Py) : Py :=
  questionValue skill uploaded q (fieldKeyOf q) (inputTypeOf q) (requiredOf q)

/-- The `input_type` spellings with a dedicated branch in
`auto_answer_card`'s `if/elif` chain. -/
def specialInputTypes : List String :=
  ["boolean", "bool", "select", "single_select", "single_choice",
   "multi_select", "multiple_select", "file_ids", "file_id"]

/-- The `input_type` spellings whose branch precedes the
file/attachment branch. -/
def nonFileInputTypes : List String :=
  ["boolean", "bool", "select", "single_select", "single_choice",
   "multi_select", "multiple_select"]

/-- The three field keys with hard-coded text answers. -/
def profileSlotKeys : List String :=
  ["profile.summary", "profile.facts", "profile.claims"]

/-- The value the `fk == "attachment_file_ids"` arm computes: declared
default, else the uploaded-file-id list, else `[]`. -/
def attachmentValue (dflt : Py) (uploaded : List String) : Py :=
  if hasDefault dflt then dflt
  else if !uploaded.isEmpty then .list (uploaded.map Py.str)
  else .list []

/-- `[str(x).strip() for x in (uploaded_file_ids or []) if str(x).strip()]`. -/
def cleanUploaded (uploaded : List Py) : List String :=
  (uploaded.map (fun x => pyStrip (pyStr x))).filter (fun s => s != "")

/-- The `questions` list of a card:
`card.get("questions") if isinstance(..., list) else []`. -/
def questionsOf (card : Py) : List Py :=
  match pyGet card "questions" with
  | some (.list xs) => xs
  | _ => []

/-- The answer list produced by `auto_answer_card` (before being wrapped
into `{"answers": ...}`). -/
def answersOf (card : Py) (overrides : List (String × Py)) (uploaded : List Py) :
    List (String × Py) :=
  (questionsOf card).filterMap
    (resolveQuestion (strFieldStrip card "skill_id") overrides (cleanUploaded uploaded))

/-- `auto_answer_card(card, overrides=..., uploaded_file_ids=...)`:
builds `{"answers": [{"field_key": fk, "value": v}, ...]}`. -/
def auto_answer_card (card : Py) (overrides : List (String × Py))
    (uploaded : List Py) : Py :=
  .dict [("answers", .list ((answersOf card overrides uploaded).map
    (fun a => .dict [("field_key", .str a.1), ("value", a.2)])))]

/-! ## WebSocket stream decoder (`ApiClient._post_ws`)

The frame-reading loop is driven by the outcomes of
`await asyncio.wait_for(ws.recv(), timeout=...)` followed by
`json.loads`: each read either yields a parsed frame, raises
`asyncio.TimeoutError`, or raises some other exception (connection
closed, malformed JSON, ...).  A run of the loop is modelled against the
finite list of outcomes the network delivers. -/

/-- One outcome of a frame read inside the `while True` loop. -/
inductive RecvOutcome where
  | timeout
  | frame (payload : Py)
  | exn
deriving Repr

/-- The synthetic partial-termination sentinel appended on a read
timeout: `{"event": "error", "data": {"error": "timeout", "partial": True}}`. -/
def errorSentinel : Py :=
  .dict [("event", .str "error"),
         ("data", .dict [("error", .str "timeout"), ("partial", .bool true)])]

/-- `payload.get("data", payload)`. -/
def dataOrSelf (payload : Py) : Py :=
  match pyGet payload "data" with
  | some v => v
  | Option.none => payload

/-- The event entry appended to `events`:
`{"event": evt, "data": evt_data}`. -/
def mkEvent (payload : Py) : Py :=
  .dict [("event", pyGetD payload "event" Py.none), ("data", dataOrSelf payload)]

/-- Is this frame's `event` field `"end"` or `"complete"`? -/
def isTerminalEvt (evt : Py) : Bool :=
  evt == .str "end" || evt == .str "complete"

/-- The event-collection loop of `_post_ws`, run against a list of read
outcomes, accumulating `events`.  Returns `Option.none` when the
modelled outcome list is exhausted before the loop stops (the real loop
would issue another read); `some (.error ())` when the attempt raises
(non-dict payload / parse failure / connection error, caught by the
outer retry loop); `some (.ok events)` when the loop breaks and the
attempt returns. -/
def collectEvents : List RecvOutcome → List Py → Option (Except Unit (List Py))
  | [], _ => Option.none
  | .timeout :: _, acc => some (.ok (acc ++ [errorSentinel]))
  | .exn :: _, _ => some (.error ())
  | .frame payload :: rest, acc =>
    if !isDict payload then some (.error ())
    else
      let evt := pyGetD payload "event" Py.none
      if evt == .str "ping" then collectEvents rest acc
      else
        let acc := acc ++ [mkEvent payload]
        if isTerminalEvt evt then some (.ok acc)
        else collectEvents rest acc

/-- The event the output-extraction scan stops at: the last entry of
`events` whose `event` is `end`/`complete` and whose `data` is a dict
(the `for it in reversed(events)` loop with its `break`). -/
def lastTerminalDictEvent (events : List Py) : Option Py :=
  events.reverse.find? (fun e =>
    isTerminalEvt (pyGetD e "event" Py.none) && isDict (pyGetD e "data" Py.none))

/-- The output-extraction scan after the loop: walk `reversed(events)`,
stop at the first entry whose `event` is `end`/`complete` and whose
`data` is a dict, and take `str(data.get("output") or "")`. -/
def extractOutput (events : List Py) : String :=
  match lastTerminalDictEvent events with
  | some e =>
    let out := pyGetD (pyGetD e "data" Py.none) "output" Py.none
    if truthy out then pyStr out else ""
  | Option.none => ""

/-- The decoded result `{"events": events, "output": output}`. -/
structure WsResult where
  events : List Py
  output : String
deriving Repr, DecidableEq

/-- One connect attempt of `_post_ws`: either the connect/auth/send
phase raises before the read loop starts, or the read loop runs against
a list of read outcomes. -/
inductive AttemptScript where
  | earlyFail
  | drain (outcomes : List RecvOutcome)
deriving Repr

/-- Run one attempt: an early failure is an attempt exception; otherwise
the read loop runs and, on a break, the attempt returns
`{"events": ..., "output": extract(events)}`. -/
def runAttempt : AttemptScript → Option (Except Unit WsResult)
  | .earlyFail => some (.error ())
  | .drain os =>
    match collectEvents os [] with
    | Option.none => Option.none
    | some (.error _) => some (.error ())
    | some (.ok evs) => some (.ok ⟨evs, extractOutput evs⟩)

/-- The retry loop of `_post_ws` over its attempt budget, modelled as a
list of attempt scripts whose length is `max_attempts`: a failed attempt
with attempts remaining sleeps and retries; a failed attempt at the
budget re-raises; a successful attempt returns.  (The `[]` case models
`max_attempts = 0`, where the loop body never runs and the trailing
`raise` fires.) -/
def wsAttempts : List AttemptScript → Option (Except Unit WsResult)
  | [] => some (.error ())
  | s :: rest =>
    match runAttempt s with
    | Option.none => Option.none
    | some (.ok r) => some (.ok r)
    | some (.error _) => if rest.isEmpty then some (.error ()) else wsAttempts rest

/-! ## HTTP transport (`ApiClient._request`) -/

/-- One outcome of `await client.request(...)`: a network-level
`httpx.RequestError`, or a response with a status code. -/
inductive HttpOutcome where
  | netErr
  | status (code : Nat)
deriving Repr, DecidableEq

/-- The ways `_request` can raise. -/
inductive ReqError where
  | network
  | httpStatus (code : Nat)
  | exhausted
deriving Repr, DecidableEq

deriving instance DecidableEq for Except

/-- The observable trace of one `_request` call: its result (`ok` holds
the 2xx status whose body is returned), the index of the attempt on
which the loop stopped, and the backoff sleeps (in seconds) issued
between attempts. -/
structure ReqTrace where
  result : Except ReqError Nat
  stoppedAt : Nat
  sleeps : List ℚ
deriving DecidableEq

/-- Record a backoff sleep in front of a trace. -/
def withSleep (q : ℚ) (t : ReqTrace) : ReqTrace :=
  { t with sleeps := q :: t.sleeps }

/-- Is the status one of the transient gateway codes `{502, 503, 504}`? -/
def retryableStatus (c : Nat) : Bool :=
  c == 502 || c == 503 || c == 504

/-- Is the status a 2xx success (httpx `raise_for_status` raises on
every non-2xx when redirects are not followed)? -/
def is2xx (c : Nat) : Bool :=
  200 ≤ c && c < 300

/-- The attempt loop of `_request`: `maxA` is `max_attempts`, `i` the
current attempt index, `o` the per-attempt outcome; the fuel counts the
remaining loop iterations (`maxA - i + 1`).  On a network error: raise
when the budget is spent, else sleep `min(4.0, 0.5 * attempt)` and
retry.  On 502/503/504 with attempts remaining: sleep and retry.
Otherwise `raise_for_status`: return the body on 2xx, raise on any other
status.  Fuel 0 models `max_attempts = 0` (loop never entered, trailing
`raise` fires). -/
def reqGo (maxA : Nat) (o : Nat → HttpOutcome) : Nat → Nat → ReqTrace
  | 0, _ => ⟨.error .exhausted, 0, []⟩
  | fuel + 1, i =>
    match o i with
    | .netErr =>
      if maxA ≤ i then ⟨.error .network, i, []⟩
      else withSleep (min 4 (i / 2 : ℚ)) (reqGo maxA o fuel (i + 1))
    | .status c =>
      if retryableStatus c && i < maxA then
        withSleep (min 4 (i / 2 : ℚ)) (reqGo maxA o fuel (i + 1))
      else if is2xx c then ⟨.ok c, i, []⟩
      else ⟨.error (.httpStatus c), i, []⟩

/-- `_request(method, path, ...)` with the configured GET retry budget:
`max_attempts = get_retries if method.upper() == "GET" else 1`. -/
def requestRun (method : String) (getRetries : Nat) (o : Nat → HttpOutcome) : ReqTrace :=
  let maxA := if pyUpper method == "GET" then getRetries else 1
  reqGo maxA o maxA 1

/-- The behaviour of a single attempt (what every non-GET request gets,
and what a GET with budget 1 gets). -/
def singleAttempt : HttpOutcome → ReqTrace
  | .netErr => ⟨.error .network, 1, []⟩
  | .status c => if is2xx c then ⟨.ok c, 1, []⟩ else ⟨.error (.httpStatus c), 1, []⟩

/-! ## Card signatures and the Workflow Driver Loop
(`flow_runner.card_signature`, `WorkbenchFlow`) -/

/-- JSON string escaping as done by `json.dumps` with
`ensure_ascii=False` for the characters that can occur here (backslash,
quote, and the common control characters). -/
def jsonEscChar (c : Char) : String :=
  if c = '\\' then "\\\\"
  else if c = '"' then "\\\""
  else if c = '\n' then "\\n"
  else if c = '\t' then "\\t"
  else if c = '\r' then "\\r"
  else String.singleton c

/-- A JSON string literal. -/
def jsonStr (s : String) : String :=
  "\"" ++ String.join (s.data.map jsonEscChar) ++ "\""

/-- The `"{fk}|{it}"` signature entries for a card's questions. -/
def questionSigs (card : Py) : List String :=
  (questionsOf card).filterMap (fun q =>
    if !isDict q then Option.none
    else
      let fk := fieldKeyOf q
      let it := inputTypeOf q
      if fk != "" then some (fk ++ "|" ++ it) else Option.none)

/-- `card_signature(card)`: the canonical serialization
`json.dumps({"skill":…, "task":…, "review":…, "questions":[…]},
ensure_ascii=False, sort_keys=True)` (keys sorted, `", "`/`": "`
separators).  The source then hashes this string (sha256, first 16 hex
characters) purely for log readability; the hash is a function of this
serialization, and every property proved in this file depends on card
signatures only through equality of serializations, which hashing
preserves, so the signature is modelled by its serialization. -/
def card_signature (card : Py) : String :=
  "\x7b\"questions\": [" ++ String.intercalate ", " ((questionSigs card).map jsonStr)
    ++ "], \"review\": " ++ jsonStr (strFieldStrip card "review_type")
    ++ ", \"skill\": " ++ jsonStr (strFieldStrip card "skill_id")
    ++ ", \"task\": " ++ jsonStr (strFieldStrip card "task_key")
    ++ "\x7d"

/-- `unwrap_api_response(resp)` from `_support/utils.py`: a dict with a
`code` key is unwrapped to its `data` field. -/
def unwrapApi (r : Py) : Py :=
  if isDict r && (pyGet r "code").isSome then pyGetD r "data" Py.none else r

/-- Modelled from the spec: `assert_has_user_message` is imported by
`flow_runner.py` from `_support/sse.py`, but its definition is absent
from the sources.  Per the spec's stream-event vocabulary (which
includes `user_message`) and the pattern of the sibling assert helpers
in `_support/sse.py`, it raises `AssertionError` unless the decoded
stream contains at least one `user_message` event; this predicate is
that check. -/
def hasUserMessage (sse : Py) : Bool :=
  match pyGet sse "events" with
  | some (.list evs) =>
    evs.any (fun e => isDict e && pyGetD e "event" Py.none == Py.str "user_message")
  | _ => false

/-- The mutable state of a `WorkbenchFlow`, plus `stepCalls`, an
instrumentation counter (not a field of the source dataclass) counting
how many times `step()` has run, used by the bounded-iteration
theorems. -/
structure FlowState where
  session_id : String
  matter_id : Option String
  uploaded_file_ids : List Py
  overrides : List (String × Py)
  seen_cards : List Py
  seen_card_signatures : List String
  seen_sse : List Py
  last_sse : Option Py
  stepCalls : Nat
deriving Repr

/-- The remote responses a drive loop observes, indexed by the loop's
step counter: the unwrapped-or-raw payloads of `get_session` and
`get_pending_card`, and the decoded stream result of the `resume` or
`chat` call issued in that step.  Network exceptions from those calls
are outside this model (they would propagate out of `run_until`
immediately, stopping the loop). -/
structure ClientEnv where
  getSession : Nat → Py
  pendingCard : Nat → Py
  resumeSse : Nat → Py
  chatSse : Nat → Py

/-- `WorkbenchFlow.refresh`: adopt the session's `matter_id` when the
session payload is a dict whose `matter_id` is not `None`. -/
def refreshState (sessionResp : Py) (s : FlowState) : FlowState :=
  let sess := unwrapApi sessionResp
  match (if isDict sess then pyGet sess "matter_id" else Option.none) with
  | some v => if v == Py.none then s else { s with matter_id := some (pyStrip (pyStr v)) }
  | Option.none => s

/-- `WorkbenchFlow.get_pending_card`: the unwrapped payload counts as a
pending card only when it is a non-empty dict. -/
def pendingCardOf (resp : Py) : Option Py :=
  let card := unwrapApi resp
  if isDict card && truthy card then some card else Option.none

/-- One `WorkbenchFlow.step()` at loop index `i`: refresh, poll the
pending card; on a card, `resume_card` records the card and its
signature, computes `auto_answer_card`, submits it and asserts the
stream echoes a user message (an `AssertionError`, carried with the
state at raise time, when it does not); otherwise a nudge chat is sent.
A dict stream result is recorded in `last_sse`/`seen_sse`. -/
def stepF (env : ClientEnv) (i : Nat) (s : FlowState) :
    Except (String × FlowState) FlowState :=
  let s := { s with stepCalls := s.stepCalls + 1 }
  let s := refreshState (env.getSession i) s
  match pendingCardOf (env.pendingCard i) with
  | some card =>
    let s := { s with
      seen_cards := s.seen_cards ++ [card],
      seen_card_signatures := s.seen_card_signatures ++ [card_signature card] }
    let _userResponse := auto_answer_card card s.overrides s.uploaded_file_ids
    let sse := env.resumeSse i
    if hasUserMessage sse then
      .ok (if isDict sse then
        { s with last_sse := some sse, seen_sse := s.seen_sse ++ [sse] } else s)
    else .error ("SSE missing user_message events", s)
  | Option.none =>
    let sse := env.chatSse i
    .ok (if isDict sse then
      { s with last_sse := some sse, seen_sse := s.seen_sse ++ [sse] } else s)

/-- How a `run_until` call ends: the predicate became true at step `i`;
the step budget ran out (`AssertionError` with the diagnostic message);
or an exception from inside `step()` propagated. -/
inductive RunOutcome where
  | reached (stepIdx : Nat) (s : FlowState)
  | maxStepsFailure (msg : String) (s : FlowState)
  | stepError (msg : String) (s : FlowState)
deriving Repr

/-- The `AssertionError` message raised when the budget is exhausted:
`f"Failed to reach {description} after {max_steps} steps
(session_id={...}, matter_id={...})"` (an `Optional[str]` interpolates
as `None` when absent). -/
def failMsg (description : String) (maxSteps : Nat) (s : FlowState) : String :=
  "Failed to reach " ++ description ++ " after " ++ toString maxSteps
    ++ " steps (session_id=" ++ s.session_id ++ ", matter_id="
    ++ (match s.matter_id with | some m => m | Option.none => "None") ++ ")"

/-- The `for i in range(1, max_steps + 1)` loop of `run_until`: check
the predicate, return on success, otherwise run one step; past the last
index, raise the diagnostic `AssertionError`.  `fuel` is the number of
remaining indices (`maxSteps - i + 1`). -/
def runLoop (env : ClientEnv) (pred : FlowState → Bool) (description : String)
    (maxSteps : Nat) : Nat → Nat → FlowState → RunOutcome
  | 0, _, s => .maxStepsFailure (failMsg description maxSteps s) s
  | fuel + 1, i, s =>
    if pred s then .reached i s
    else
      match stepF env i s with
      | .ok s' => runLoop env pred description maxSteps fuel (i + 1) s'
      | .error (msg, s') => .stepError msg s'

/-- `WorkbenchFlow.run_until(predicate, max_steps=..., description=...)`. -/
def run_until (env : ClientEnv) (pred : FlowState → Bool) (maxSteps : Nat)
    (description : String) (s0 : FlowState) : RunOutcome :=
  runLoop env pred description maxSteps maxSteps 1 s0

/-- The state carried by a run outcome. -/
def RunOutcome.state : RunOutcome → FlowState
  | .reached _ s => s
  | .maxStepsFailure _ s => s
  | .stepError _ s => s

/-- The failure message of a run outcome (empty for a success). -/
def RunOutcome.msg : RunOutcome → String
  | .reached _ _ => ""
  | .maxStepsFailure m _ => m
  | .stepError m _ => m

/-- Did the run end with the max-steps `AssertionError`? -/
def RunOutcome.isMaxStepsFailure : RunOutcome → Bool
  | .maxStepsFailure _ _ => true
  | _ => false

/-- A fresh flow bound to a session, as built by the fixtures. -/
def initFlow (sid : String) : FlowState :=
  ⟨sid, Option.none, [], [], [], [], [], Option.none, 0⟩

/-- An environment that reports the same pending card at every step and
answers every resume with the stream payload `sse`. -/
def constCardEnv (card : Py) (sse : Py) : ClientEnv :=
  ⟨fun _ => Py.none, fun _ => card, fun _ => sse, fun _ => Py.none⟩

/-- A stream payload containing a `user_message` echo event. -/
def userMessageSse : Py :=
  .dict [("events", .list [.dict [("event", .str "user_message"),
    ("data", .dict [("content", .str "ok")])]]), ("output", .str "")]

/-- A read outcome that keeps the frame loop going: a dict frame whose
event is not terminal (`ping` frames are skipped, any other event is
appended and the loop continues). -/
def nonStopFrame : RecvOutcome → Bool
  | .frame p => isDict p && !isTerminalEvt (pyGetD p "event" Py.none)
  | _ => false

/-- The audit-trail invariant of a `WorkbenchFlow`: the recorded
signatures are exactly the signatures of the recorded cards, in
order. -/
def auditConsistent (s : FlowState) : Prop :=
  s.seen_card_signatures = s.seen_cards.map card_signature

/-! ## Theorems and supporting lemmas -/

lemma hasDefault_ne_none {d : Py} (h : hasDefault d = true) : d ≠ Py.none := by
  cases d <;> simp_all [hasDefault]

lemma resolveQuestion_eq (skill : String) (ov : List (String × Py)) (up : List String)
    (q : Py) (hd : isDict q = true) (hfk : fieldKeyOf q ≠ "") :
    resolveQuestion skill ov up q =
      (if resolve_override_value (fieldKeyOf q) ov != Py.none
       then some (fieldKeyOf q, resolve_override_value (fieldKeyOf q) ov)
       else if resolvedValue skill up q == Py.none && !requiredOf q then Option.none
       else some (fieldKeyOf q, resolvedValue skill up q)) := by
  simp [resolveQuestion, resolvedValue, hd, hfk]

lemma resolveQuestion_required_some (skill : String) (ov : List (String × Py))
    (up : List String) (q : Py) (hd : isDict q = true) (hfk : fieldKeyOf q ≠ "")
    (hr : requiredOf q = true) :
    ∃ v, resolveQuestion skill ov up q = some (fieldKeyOf q, v) := by
  rw [resolveQuestion_eq skill ov up q hd hfk]
  simp [hr]
  split
  · exact ⟨_, rfl⟩
  · exact ⟨_, rfl⟩

lemma questionValue_default (skill : String) (up : List String) (q : Py)
    (fk it : String) (required : Bool)
    (hd : hasDefault (defaultOf q) = true)
    (h : it ∈ specialInputTypes ∨ fk ∉ profileSlotKeys) :
    questionValue skill up q fk it required = defaultOf q := by
  unfold questionValue
  by_cases h1 : it ∈ ["boolean", "bool"]
  · simp [h1, hd]
  by_cases h2 : it ∈ ["select", "single_select", "single_choice"]
  · simp [h1, h2, hd]
  by_cases h3 : it ∈ ["multi_select", "multiple_select"]
  · simp [h1, h2, h3, hd]
  by_cases h4 : (it ∈ ["file_ids", "file_id"] || fk == "attachment_file_ids")
  · simp only [h1, h2, h3, h4, if_false, if_true]
    split <;> simp [hd]
  · have hfk : fk ∉ profileSlotKeys := by
      rcases h with h | h
      · exfalso
        simp [specialInputTypes] at h
        rcases h with h | h | h | h | h | h | h | h | h <;> subst h <;>
          simp_all [List.mem_cons]
      · exact h
    have hk1 : fk ≠ "profile.summary" := by simp [profileSlotKeys] at hfk; tauto
    have hk2 : fk ≠ "profile.facts" := by simp [profileSlotKeys] at hfk; tauto
    have hk3 : fk ≠ "profile.claims" := by simp [profileSlotKeys] at hfk; tauto
    simp [h1, h2, h3, h4, hk1, hk2, hk3, hd]

/-- Claim C1, amended: every required question that is a dict with a
non-empty field key yields an answer (with that field key) in
`auto_answer_card`'s answer list — one per such question, since the
list is built by a per-question `filterMap` — but its value is not
guaranteed non-null/non-empty: the code has no required-field repair
step (see the counterexample, where a required `select` with no options
is answered with null). -/
theorem c1_required_question_gets_answer (card : Py) (ov : List (String × Py))
    (up : List Py) (q : Py) (hq : q ∈ questionsOf card) (hd : isDict q = true)
    (hfk : fieldKeyOf q ≠ "") (hr : requiredOf q = true) :
    ∃ v, (fieldKeyOf q, v) ∈ answersOf card ov up := by
  obtain ⟨v, hv⟩ :=
    resolveQuestion_required_some (strFieldStrip card "skill_id") ov (cleanUploaded up) q hd hfk hr
  exact ⟨v, List.mem_filterMap.mpr ⟨q, hq, hv⟩⟩

/-- Witness for C1: the required boolean question of spec Scenario A
receives an answer. -/
theorem c1_witness :
    ∃ v, ("confirmed", v) ∈ answersOf (.dict [("questions", .list [.dict
      [("field_key", .str "confirmed"), ("input_type", .str "boolean"),
       ("required", .bool true)]])]) [] [] :=
  c1_required_question_gets_answer
    (.dict [("questions", .list [.dict
      [("field_key", .str "confirmed"), ("input_type", .str "boolean"),
       ("required", .bool true)]])]) [] []
    (.dict [("field_key", .str "confirmed"), ("input_type", .str "boolean"),
      ("required", .bool true)])
    (List.mem_singleton.mpr rfl) rfl (by decide) rfl

/-- Counterexample to C1 as stated: a required `select` question with
no default and no options is answered with value null — no
required-field repair step replaces it with a sentinel. -/
theorem c1_counterexample :
    auto_answer_card (.dict [("questions", .list [.dict [("field_key", .str "choice"),
        ("input_type", .str "select"), ("required", .bool true)]])]) [] []
      = .dict [("answers", .list [.dict [("field_key", .str "choice"),
          ("value", Py.none)]])] := rfl

/-- Claim C2, amended: with no applicable override and a usable declared
default, `auto_answer_card` resolves a question to that default for
every input type with a dedicated branch (boolean/select/multi-select/
file families) and for every other field key — but *not* for text-like
questions whose field key is `profile.summary`, `profile.facts` or
`profile.claims`, where the hard-coded sentence takes precedence over
the declared default (see the counterexample). -/
theorem c2_declared_default_resolved (card : Py) (ov : List (String × Py)) (up : List Py)
    (q : Py) (hq : q ∈ questionsOf card) (hd : isDict q = true) (hfk : fieldKeyOf q ≠ "")
    (hov : resolve_override_value (fieldKeyOf q) ov = Py.none)
    (hdef : hasDefault (defaultOf q) = true)
    (h : inputTypeOf q ∈ specialInputTypes ∨ fieldKeyOf q ∉ profileSlotKeys) :
    (fieldKeyOf q, defaultOf q) ∈ answersOf card ov up := by
  have hval : resolvedValue (strFieldStrip card "skill_id") (cleanUploaded up) q = defaultOf q :=
    questionValue_default _ _ q _ _ _ hdef h
  have hv : resolveQuestion (strFieldStrip card "skill_id") ov (cleanUploaded up) q
      = some (fieldKeyOf q, defaultOf q) := by
    rw [resolveQuestion_eq _ ov _ q hd hfk, hov]
    simp [hval, hasDefault_ne_none hdef]
  exact List.mem_filterMap.mpr ⟨q, hq, hv⟩

/-- Witness for C2: a boolean question with a declared default resolves
to that default, even on a `profile.summary` field key. -/
theorem c2_witness :
    ("profile.summary", Py.str "d") ∈ answersOf (.dict [("questions", .list [.dict
      [("field_key", .str "profile.summary"), ("input_type", .str "boolean"),
       ("default", .str "d"), ("required", .bool true)]])]) [] [] :=
  c2_declared_default_resolved
    (.dict [("questions", .list [.dict
      [("field_key", .str "profile.summary"), ("input_type", .str "boolean"),
       ("default", .str "d"), ("required", .bool true)]])]) [] []
    (.dict [("field_key", .str "profile.summary"), ("input_type", .str "boolean"),
      ("default", .str "d"), ("required", .bool true)])
    (List.mem_singleton.mpr rfl) rfl (by decide) rfl rfl (Or.inl (by decide))

/-- Counterexample to C2 as stated: a `text` question on
`profile.summary` with declared default `"my default"` resolves to the
hard-coded sentence, not to its declared default. -/
theorem c2_counterexample :
    auto_answer_card (.dict [("questions", .list [.dict
        [("field_key", .str "profile.summary"), ("input_type", .str "text"),
         ("required", .bool true), ("default", .str "my default")]])]) [] []
      = .dict [("answers", .list [.dict [("field_key", .str "profile.summary"),
          ("value", .str summarySentence)]])]
    ∧ summarySentence ≠ "my default" := ⟨rfl, by decide⟩

/-- Claim C3, amended: an optional question (no applicable override) is
omitted from the answer set exactly when steps 3–4 leave Python `None`;
an empty-string or empty-list resolved value is *not* omitted — it is
submitted as the answer (see the counterexample, where an optional
`multi_select` with no usable option submits `[]`). -/
theorem c3_optional_omitted_iff_null (skill : String) (ov : List (String × Py))
    (up : List String) (q : Py) (hd : isDict q = true) (hfk : fieldKeyOf q ≠ "")
    (hr : requiredOf q = false)
    (hov : resolve_override_value (fieldKeyOf q) ov = Py.none) :
    (resolveQuestion skill ov up q = Option.none ↔ resolvedValue skill up q = Py.none)
    ∧ (resolvedValue skill up q ≠ Py.none →
        resolveQuestion skill ov up q = some (fieldKeyOf q, resolvedValue skill up q)) := by
  by_cases hv : resolvedValue skill up q = Py.none <;>
    simp [resolveQuestion_eq skill ov up q hd hfk, hov, hr, hv]

/-- Witness for C3: an optional text question with no default is
omitted exactly when its resolved value is null. -/
theorem c3_witness :
    resolveQuestion "" [] [] (.dict [("field_key", .str "note"), ("input_type", .str "text"),
        ("required", .bool false)]) = Option.none
      ↔ resolvedValue "" [] (.dict [("field_key", .str "note"), ("input_type", .str "text"),
        ("required", .bool false)]) = Py.none :=
  (c3_optional_omitted_iff_null "" [] []
    (.dict [("field_key", .str "note"), ("input_type", .str "text"), ("required", .bool false)])
    rfl (by decide) rfl rfl).1

/-- Counterexample to C3 as stated: an optional `multi_select` with no
default and no options produces an answer with the empty list — it is
not omitted, because only `None` triggers omission. -/
theorem c3_counterexample :
    auto_answer_card (.dict [("questions", .list [.dict [("field_key", .str "docs"),
        ("input_type", .str "multi_select"), ("required", .bool false)]])]) [] []
      = .dict [("answers", .list [.dict [("field_key", .str "docs"),
          ("value", .list [])]])]
    ∧ Py.list ([] : List Py) ≠ Py.none := ⟨rfl, nofun⟩

/-! ## WebSocket decoder theorems (C6, C7, C8) -/

lemma collect_ok_last : ∀ (os : List RecvOutcome) (acc evs : List Py),
    collectEvents os acc = some (.ok evs) →
    evs ≠ [] ∧ (evs.getLast? = some errorSentinel
      ∨ ∃ e, evs.getLast? = some e ∧ isTerminalEvt (pyGetD e "event" Py.none) = true) := by
  intro os
  induction os with
  | nil => intro acc evs h; simp [collectEvents] at h
  | cons o rest ih =>
    intro acc evs h
    match o with
    | .timeout =>
      simp [collectEvents] at h
      subst h
      refine ⟨by simp, Or.inl ?_⟩
      exact List.getLast?_concat _
    | .exn => simp [collectEvents] at h
    | .frame payload =>
      rw [collectEvents] at h
      by_cases hd : isDict payload
      · simp only [hd, Bool.not_true, if_false] at h
        by_cases hp : (pyGetD payload "event" Py.none == Py.str "ping") = true
        · rw [if_pos hp] at h
          exact ih acc evs h
        · rw [if_neg hp] at h
          by_cases ht : isTerminalEvt (pyGetD payload "event" Py.none) = true
          · simp only [ht, if_true] at h
            injection h with h
            injection h with h
            subst h
            refine ⟨by simp, Or.inr ⟨mkEvent payload, List.getLast?_concat _, ?_⟩⟩
            simpa [mkEvent, pyGetD, pyGet] using ht
          · simp only [ht, if_false] at h
            exact ih _ evs h
      · simp [hd] at h

lemma collect_ok_no_ping : ∀ (os : List RecvOutcome) (acc evs : List Py),
    collectEvents os acc = some (.ok evs) →
    (∀ e ∈ acc, pyGetD e "event" Py.none ≠ .str "ping") →
    ∀ e ∈ evs, pyGetD e "event" Py.none ≠ .str "ping" := by
  intro os
  induction os with
  | nil => intro acc evs h _; simp [collectEvents] at h
  | cons o rest ih =>
    intro acc evs h hacc
    match o with
    | .timeout =>
      simp [collectEvents] at h
      subst h
      intro e he
      rcases List.mem_append.mp he with he | he
      · exact hacc e he
      · rcases List.mem_singleton.mp he with rfl
        simp [errorSentinel, pyGetD, pyGet]
    | .exn => simp [collectEvents] at h
    | .frame payload =>
      rw [collectEvents] at h
      by_cases hd : isDict payload
      · simp only [hd, Bool.not_true, if_false] at h
        by_cases hp : (pyGetD payload "event" Py.none == Py.str "ping") = true
        · rw [if_pos hp] at h
          exact ih acc evs h hacc
        · rw [if_neg hp] at h
          have hmk : pyGetD (mkEvent payload) "event" Py.none ≠ .str "ping" := by
            simp only [mkEvent, pyGetD, pyGet, List.lookup]
            simpa using hp
          have hacc2 : ∀ e ∈ acc ++ [mkEvent payload],
              pyGetD e "event" Py.none ≠ .str "ping" := by
            intro e he
            rcases List.mem_append.mp he with he | he
            · exact hacc e he
            · rcases List.mem_singleton.mp he with rfl; exact hmk
          by_cases ht : isTerminalEvt (pyGetD payload "event" Py.none) = true
          · simp only [ht, if_true] at h
            injection h with h
            injection h with h
            subst h
            exact hacc2
          · simp only [ht, if_false] at h
            exact ih _ evs h hacc2
      · simp [hd] at h

lemma collect_timeout_sentinel : ∀ (pre : List RecvOutcome) (rest : List RecvOutcome)
    (acc : List Py), (∀ o ∈ pre, nonStopFrame o = true) →
    ∃ evs, collectEvents (pre ++ .timeout :: rest) acc = some (.ok evs)
      ∧ evs.getLast? = some errorSentinel := by
  intro pre
  induction pre with
  | nil =>
    intro rest acc _
    exact ⟨acc ++ [errorSentinel], by simp [collectEvents], List.getLast?_concat _⟩
  | cons o pre ih =>
    intro rest acc hns
    have ho := hns o (List.mem_cons_self o pre)
    match o with
    | .frame payload =>
      simp only [nonStopFrame, Bool.and_eq_true, Bool.not_eq_true'] at ho
      obtain ⟨hd, ht⟩ := ho
      rw [List.cons_append, collectEvents]
      simp only [hd, Bool.not_true, if_false]
      by_cases hp : (pyGetD payload "event" Py.none == Py.str "ping") = true
      · rw [if_pos hp]
        exact ih rest acc (fun o ho => hns o (List.mem_cons_of_mem _ ho))
      · rw [if_neg hp]
        simp only [ht, if_false]
        exact ih rest _ (fun o ho => hns o (List.mem_cons_of_mem _ ho))

lemma collect_stops_at_terminal (payload : Py) (rest : List RecvOutcome) (acc : List Py)
    (hd : isDict payload = true)
    (ht : isTerminalEvt (pyGetD payload "event" Py.none) = true) :
    collectEvents (.frame payload :: rest) acc = some (.ok (acc ++ [mkEvent payload])) := by
  have hp : (pyGetD payload "event" Py.none == Py.str "ping") = false := by
    rcases Bool.or_eq_true_iff.mp ht with h | h
    · rw [beq_iff_eq] at h; rw [h]; decide
    · rw [beq_iff_eq] at h; rw [h]; decide
  rw [collectEvents]
  simp [hd, hp, ht]

/-- Claim C6: a per-event read timeout mid-stream (any run of
non-terminal dict frames followed by a timeout) makes `_post_ws` return
a result — it does not raise — and the final element of that result's
event list is the synthetic
`{"event": "error", "data": {"error": "timeout", "partial": True}}`
sentinel. -/
theorem c6_timeout_returns_partial_sentinel (pre rest : List RecvOutcome)
    (h : ∀ o ∈ pre, nonStopFrame o = true) :
    ∃ r, wsAttempts [.drain (pre ++ .timeout :: rest)] = some (.ok r)
      ∧ r.events.getLast? = some errorSentinel := by
  obtain ⟨evs, hc, hlast⟩ := collect_timeout_sentinel pre rest [] h
  refine ⟨⟨evs, extractOutput evs⟩, ?_, hlast⟩
  simp [wsAttempts, runAttempt, hc]

/-- Witness for C6: one `progress` event then a read timeout (spec
property P4). -/
theorem c6_witness :
    ∃ r, wsAttempts [.drain ([.frame (.dict [("event", .str "progress"),
        ("data", .dict [("phase", .str "analyzing")])])] ++ .timeout :: [])]
      = some (.ok r) ∧ r.events.getLast? = some errorSentinel :=
  c6_timeout_returns_partial_sentinel
    [.frame (.dict [("event", .str "progress"), ("data", .dict [("phase", .str "analyzing")])])]
    [] (by decide)

/-- Claim C7: every `_post_ws` invocation that returns a decoded result
has a non-empty event list ending either in the partial-termination
sentinel or in a terminal `end`/`complete` event; an
`error` escape happens only when every attempt in the budget failed;
and frame collection stops at the first terminal frame — outcomes after
it are never consumed. -/
theorem c7_stream_trichotomy :
    (∀ (scripts : List AttemptScript) (r : WsResult),
      wsAttempts scripts = some (.ok r) →
      r.events ≠ [] ∧ (r.events.getLast? = some errorSentinel
        ∨ ∃ e, r.events.getLast? = some e
            ∧ isTerminalEvt (pyGetD e "event" Py.none) = true))
    ∧ (∀ scripts : List AttemptScript,
        wsAttempts scripts = some (.error ()) →
        ∀ s ∈ scripts, runAttempt s = some (.error ()))
    ∧ (∀ (payload : Py) (rest : List RecvOutcome) (acc : List Py),
        isDict payload = true →
        isTerminalEvt (pyGetD payload "event" Py.none) = true →
        collectEvents (.frame payload :: rest) acc
          = some (.ok (acc ++ [mkEvent payload]))) := by
  refine ⟨?_, ?_, collect_stops_at_terminal⟩
  · intro scripts
    induction scripts with
    | nil => intro r h; simp [wsAttempts] at h
    | cons s rest ih =>
      intro r h
      rw [wsAttempts] at h
      match hs : runAttempt s with
      | Option.none => rw [hs] at h; simp at h
      | some (.ok r0) =>
        rw [hs] at h
        simp at h
        subst h
        match s, hs with
        | .drain os, hs =>
          rw [runAttempt] at hs
          match hc : collectEvents os [] with
          | Option.none => rw [hc] at hs; simp at hs
          | some (.error e) => rw [hc] at hs; simp at hs
          | some (.ok evs) =>
            rw [hc] at hs
            simp at hs
            cases hs
            exact collect_ok_last os [] _ hc
      | some (.error e) =>
        rw [hs] at h
        by_cases hrest : rest.isEmpty
        · simp [hrest] at h
        · simp only [hrest, if_false] at h
          exact ih r h
  · intro scripts
    induction scripts with
    | nil => intro _ s hs; simp at hs
    | cons s rest ih =>
      intro h t ht
      rw [wsAttempts] at h
      match hs : runAttempt s with
      | Option.none => rw [hs] at h; simp at h
      | some (.ok r0) => rw [hs] at h; simp at h
      | some (.error e) =>
        rw [hs] at h
        rcases List.mem_cons.mp ht with rfl | ht
        · rw [hs]
        · by_cases hrest : rest.isEmpty
          · rw [List.isEmpty_iff.mp hrest] at ht; simp at ht
          · simp only [hrest, if_false] at h
            exact ih h t ht

/-- Witness for C7: collection stops at a terminal `end` frame. -/
theorem c7_witness :
    collectEvents [.frame (.dict [("event", .str "end"),
        ("data", .dict [("output", .str "done")])])] []
      = some (.ok ([] ++ [mkEvent (.dict [("event", .str "end"),
          ("data", .dict [("output", .str "done")])])])) :=
  c7_stream_trichotomy.2.2
    (.dict [("event", .str "end"), ("data", .dict [("output", .str "done")])])
    [] [] rfl (by decide)

/-- Claim C8: the normalized result's `output` is taken from
`data.output` of the last event whose type is `end`/`complete` and
whose `data` is a map — the value itself when it is a string, `""` when
no such event exists or its `data.output` is absent or null — and
`ping` events never appear in a decoded event list. -/
theorem c8_output_normalization :
    (∀ evs : List Py, lastTerminalDictEvent evs = Option.none → extractOutput evs = "")
    ∧ (∀ (evs : List Py) (e : Py), lastTerminalDictEvent evs = some e →
        ((pyGet (pyGetD e "data" Py.none) "output" = Option.none
            ∨ pyGet (pyGetD e "data" Py.none) "output" = some Py.none)
          → extractOutput evs = "")
        ∧ (∀ s, pyGet (pyGetD e "data" Py.none) "output" = some (.str s)
            → extractOutput evs = s))
    ∧ (∀ (os : List RecvOutcome) (evs : List Py),
        collectEvents os [] = some (.ok evs) →
        ∀ e ∈ evs, pyGetD e "event" Py.none ≠ .str "ping")
    ∧ (∀ (os : List RecvOutcome) (r : WsResult),
        runAttempt (.drain os) = some (.ok r) → r.output = extractOutput r.events) := by
  refine ⟨?_, ?_, ?_, ?_⟩
  · intro evs h
    simp [extractOutput, h]
  · intro evs e h
    constructor
    · intro hout
      have hout2 : pyGetD (pyGetD e "data" Py.none) "output" Py.none = Py.none := by
        rcases hout with hout | hout <;>
          (unfold pyGetD at hout ⊢; rw [hout]; rfl)
      simp [extractOutput, h, hout2, truthy]
    · intro s hout
      have hout2 : pyGetD (pyGetD e "data" Py.none) "output" Py.none = Py.str s := by
        unfold pyGetD at hout ⊢; rw [hout]; rfl
      by_cases hs : s = ""
      · subst hs; simp [extractOutput, h, hout2, truthy]
      · simp [extractOutput, h, hout2, truthy, hs, pyStr]
  · intro os evs h
    exact collect_ok_no_ping os [] evs h (by simp)
  · intro os r h
    rw [runAttempt] at h
    match hc : collectEvents os [] with
    | Option.none => rw [hc] at h; simp at h
    | some (.error e) => rw [hc] at h; simp at h
    | some (.ok evs) =>
      rw [hc] at h
      simp at h
      subst h
      rfl

/-- Witness for C8: spec property P3 — a `card` event followed by an
`end` event with `data.output = "done"` decodes to output `"done"`. -/
theorem c8_witness :
    extractOutput [.dict [("event", .str "card"), ("data", .dict [("skill_id", .str "x")])],
      .dict [("event", .str "end"), ("data", .dict [("output", .str "done")])]] = "done" :=
  ((c8_output_normalization.2.1
    [.dict [("event", .str "card"), ("data", .dict [("skill_id", .str "x")])],
     .dict [("event", .str "end"), ("data", .dict [("output", .str "done")])]]
    (.dict [("event", .str "end"), ("data", .dict [("output", .str "done")])])
    rfl).2) "done" rfl

/-! ## HTTP transport theorems (C9) -/

lemma is2xx_not_retryable {c : Nat} (h : is2xx c = true) : retryableStatus c = false := by
  simp [is2xx] at h
  simp [retryableStatus]
  omega

lemma reqGo_stoppedAt_le (maxA : Nat) (o : Nat → HttpOutcome) :
    ∀ (fuel i : Nat), (reqGo maxA o fuel i).stoppedAt ≤ i + fuel - 1 := by
  intro fuel
  induction fuel with
  | zero => intro i; simp [reqGo]
  | succ fuel ih =>
    intro i
    rw [reqGo]
    match o i with
    | .netErr =>
      by_cases h : maxA ≤ i
      · simp [h]
      · simp only [h, if_false, withSleep]
        have := ih (i + 1)
        omega
    | .status c =>
      by_cases h : (retryableStatus c && decide (i < maxA)) = true
      · simp only [h, if_true, withSleep]
        have := ih (i + 1)
        omega
      · simp only [h, if_false]
        by_cases h2 : is2xx c = true <;> simp [h2]

/-- Claim C9: in `_request`, a non-GET method makes exactly one attempt
(its trace is `singleAttempt` of the first outcome, with no backoff
sleeps); a GET receiving 502/503/504 below the budget retries after
sleeping `min(4, 0.5 * attempt)` seconds; any other non-2xx status
raises at the attempt where it occurs with no retry and no sleep; a 2xx
returns its body at that attempt; and the attempt count never exceeds
the configured budget (`get_retries` for GET, 1 otherwise). -/
theorem c9_get_retry_policy :
    (∀ (m : String) (g : Nat) (o : Nat → HttpOutcome), pyUpper m ≠ "GET" →
      requestRun m g o = singleAttempt (o 1))
    ∧ (∀ (g : Nat) (o : Nat → HttpOutcome) (fuel i c : Nat),
        o i = .status c → retryableStatus c = true → i < g →
        reqGo g o (fuel + 1) i = withSleep (min 4 (i / 2 : ℚ)) (reqGo g o fuel (i + 1)))
    ∧ (∀ (maxA : Nat) (o : Nat → HttpOutcome) (fuel i c : Nat),
        o i = .status c → retryableStatus c = false → is2xx c = false →
        reqGo maxA o (fuel + 1) i = ⟨.error (.httpStatus c), i, []⟩)
    ∧ (∀ (maxA : Nat) (o : Nat → HttpOutcome) (fuel i c : Nat),
        o i = .status c → is2xx c = true →
        reqGo maxA o (fuel + 1) i = ⟨.ok c, i, []⟩)
    ∧ (∀ (m : String) (g : Nat) (o : Nat → HttpOutcome),
        (requestRun m g o).stoppedAt ≤ (if pyUpper m == "GET" then g else 1)) := by
  refine ⟨?_, ?_, ?_, ?_, ?_⟩
  · intro m g o hm
    have hm2 : (pyUpper m == "GET") = false := by simp [hm]
    rw [requestRun]
    simp only [hm2, Bool.false_eq_true, if_false]
    show reqGo 1 o (0 + 1) 1 = _
    rw [reqGo]
    rcases ho : o 1 with _ | c <;> simp [singleAttempt]
  · intro g o fuel i c ho hr hi
    rw [reqGo, ho]
    simp [hr, hi]
  · intro maxA o fuel i c ho hr h2
    rw [reqGo, ho]
    simp [hr, h2]
  · intro maxA o fuel i c ho h2
    rw [reqGo, ho]
    simp [is2xx_not_retryable h2, h2]
  · intro m g o
    rw [requestRun]
    cases hm : (pyUpper m == "GET") with
    | true =>
      simp only [hm, if_true]
      have := reqGo_stoppedAt_le g o g 1
      omega
    | false =>
      simp only [hm, Bool.false_eq_true, if_false]
      have := reqGo_stoppedAt_le 1 o 1 1
      omega

/-- Witness for C9: a POST hitting 503 fails on its single attempt; a
GET's first 502 below budget sleeps 0.5 s and retries; a GET's 404
raises immediately. -/
theorem c9_witness :
    requestRun "POST" 180 (fun _ => .status 503) = singleAttempt (.status 503)
    ∧ reqGo 3 (fun _ => .status 502) 3 1
        = withSleep (min 4 ((1 : ℚ) / 2)) (reqGo 3 (fun _ => .status 502) 2 2)
    ∧ reqGo 5 (fun _ => .status 404) 5 1 = ⟨.error (.httpStatus 404), 1, []⟩ :=
  ⟨c9_get_retry_policy.1 "POST" 180 (fun _ => .status 503) (by decide),
   c9_get_retry_policy.2.1 3 (fun _ => .status 502) 2 1 502 rfl (by decide) (by decide),
   c9_get_retry_policy.2.2.1 5 (fun _ => .status 404) 4 1 404 rfl (by decide) (by decide)⟩

/-! ## Driver-loop theorems (C4, C5) -/

lemma refreshState_spec (r : Py) (s : FlowState) :
    ∃ m, refreshState r s = { s with matter_id := m } := by
  unfold refreshState
  rcases hx : (if isDict (unwrapApi r) = true
      then pyGet (unwrapApi r) "matter_id" else Option.none) with _ | v
  · refine ⟨s.matter_id, ?_⟩
    dsimp only
    rw [hx]
  · by_cases hv : (v == Py.none) = true
    · refine ⟨s.matter_id, ?_⟩
      dsimp only
      rw [hx]
      dsimp only
      rw [if_pos hv]
    · refine ⟨some (pyStrip (pyStr v)), ?_⟩
      dsimp only
      rw [hx]
      dsimp only
      rw [if_neg hv]

lemma stepF_spec (env : ClientEnv) (i : Nat) (s : FlowState) :
    (∀ s', stepF env i s = .ok s' →
      s'.stepCalls = s.stepCalls + 1 ∧ s'.session_id = s.session_id ∧
      (s'.seen_cards = s.seen_cards ∧ s'.seen_card_signatures = s.seen_card_signatures
        ∨ ∃ c, s'.seen_cards = s.seen_cards ++ [c]
            ∧ s'.seen_card_signatures = s.seen_card_signatures ++ [card_signature c]))
    ∧ (∀ m s', stepF env i s = .error (m, s') →
      s'.stepCalls = s.stepCalls + 1 ∧ s'.session_id = s.session_id ∧
      ∃ c, s'.seen_cards = s.seen_cards ++ [c]
        ∧ s'.seen_card_signatures = s.seen_card_signatures ++ [card_signature c]) := by
  obtain ⟨m, hm⟩ := refreshState_spec (env.getSession i)
    { s with stepCalls := s.stepCalls + 1 }
  constructor
  · intro s' h
    unfold stepF at h
    dsimp only at h
    rw [hm] at h
    split at h
    · split at h
      · injection h with h
        subst h
        split <;> exact ⟨rfl, rfl, Or.inr ⟨_, rfl, rfl⟩⟩
      · exact absurd h nofun
    · injection h with h
      subst h
      split <;> exact ⟨rfl, rfl, Or.inl ⟨rfl, rfl⟩⟩
  · intro msg s' h
    unfold stepF at h
    dsimp only at h
    rw [hm] at h
    split at h
    · split at h
      · exact absurd h nofun
      · injection h with h
        injection h with h1 h2
        subst h2
        exact ⟨rfl, rfl, _, rfl, rfl⟩
    · exact absurd h nofun

lemma auditConsistent_append {s s' : FlowState} {c : Py}
    (hc : s'.seen_cards = s.seen_cards ++ [c])
    (hg : s'.seen_card_signatures = s.seen_card_signatures ++ [card_signature c])
    (h : auditConsistent s) : auditConsistent s' := by
  unfold auditConsistent at *
  rw [hc, hg, h, List.map_append, List.map_singleton]

lemma runLoop_spec (env : ClientEnv) (pred : FlowState → Bool) (desc : String)
    (maxSteps : Nat) : ∀ (fuel i : Nat) (s : FlowState),
    (pred s = true → 0 < fuel →
      runLoop env pred desc maxSteps fuel i s = .reached i s)
    ∧ (∀ j s', runLoop env pred desc maxSteps fuel i s = .reached j s' →
        i ≤ j ∧ j + 1 ≤ i + fuel ∧ pred s' = true
          ∧ s'.stepCalls = s.stepCalls + (j - i) ∧ s'.session_id = s.session_id
          ∧ (auditConsistent s → auditConsistent s'))
    ∧ (∀ msg s', runLoop env pred desc maxSteps fuel i s = .maxStepsFailure msg s' →
        msg = failMsg desc maxSteps s' ∧ s'.stepCalls = s.stepCalls + fuel
          ∧ s'.session_id = s.session_id ∧ (auditConsistent s → auditConsistent s'))
    ∧ (runLoop env pred desc maxSteps fuel i s).state.stepCalls ≤ s.stepCalls + fuel
    ∧ (auditConsistent s →
        auditConsistent (runLoop env pred desc maxSteps fuel i s).state) := by
  intro fuel
  induction fuel with
  | zero =>
    intro i s
    refine ⟨fun _ h => absurd h (by omega), ?_, ?_, ?_, ?_⟩
    · intro j s' h; exact absurd h nofun
    · intro msg s' h
      rw [runLoop] at h
      injection h with h1 h2
      subst h2
      exact ⟨h1.symm ▸ rfl, rfl, rfl, id⟩
    · rw [runLoop]; exact Nat.le_refl _
    · rw [runLoop]; exact id
  | succ fuel ih =>
    intro i s
    by_cases hp : pred s = true
    · have hrun : runLoop env pred desc maxSteps (fuel + 1) i s = .reached i s := by
        rw [runLoop, if_pos hp]
      refine ⟨fun _ _ => hrun, ?_, ?_, ?_, ?_⟩
      · intro j s' h
        rw [hrun] at h
        injection h with h1 h2
        subst h1; subst h2
        exact ⟨Nat.le_refl _, by omega, hp, by omega, rfl, id⟩
      · intro msg s' h; rw [hrun] at h; exact absurd h nofun
      · rw [hrun]; exact Nat.le_add_right _ _
      · rw [hrun]; exact id
    · match hstep : stepF env i s with
      | .ok s2 =>
        have hrun : runLoop env pred desc maxSteps (fuel + 1) i s
            = runLoop env pred desc maxSteps fuel (i + 1) s2 := by
          rw [runLoop, if_neg hp, hstep]
        obtain ⟨hc1, hsid, hcards⟩ := (stepF_spec env i s).1 s2 hstep
        have haud2 : auditConsistent s → auditConsistent s2 := by
          intro ha
          rcases hcards with ⟨h1, h2⟩ | ⟨c, h1, h2⟩
          · unfold auditConsistent at *; rw [h1, h2]; exact ha
          · exact auditConsistent_append h1 h2 ha
        refine ⟨fun h _ => absurd h hp, ?_, ?_, ?_, ?_⟩
        · intro j s' h
          rw [hrun] at h
          obtain ⟨hj1, hj2, hj3, hj4, hj5, hj6⟩ := (ih (i + 1) s2).2.1 j s' h
          exact ⟨by omega, by omega, hj3, by omega, hj5.trans hsid,
            fun ha => hj6 (haud2 ha)⟩
        · intro msg s' h
          rw [hrun] at h
          obtain ⟨hm1, hm2, hm3, hm4⟩ := (ih (i + 1) s2).2.2.1 msg s' h
          exact ⟨hm1, by omega, hm3.trans hsid, fun ha => hm4 (haud2 ha)⟩
        · rw [hrun]
          have := (ih (i + 1) s2).2.2.2.1
          omega
        · rw [hrun]
          exact fun ha => (ih (i + 1) s2).2.2.2.2 (haud2 ha)
      | .error ms2 =>
        have hrun : runLoop env pred desc maxSteps (fuel + 1) i s
            = .stepError ms2.1 ms2.2 := by
          rw [runLoop, if_neg hp, hstep]
        obtain ⟨hc1, hsid, c, h1, h2⟩ := (stepF_spec env i s).2 ms2.1 ms2.2 (by
          rw [hstep])
        refine ⟨fun h _ => absurd h hp, ?_, ?_, ?_, ?_⟩
        · intro j s' h; rw [hrun] at h; exact absurd h nofun
        · intro msg s' h; rw [hrun] at h; exact absurd h nofun
        · rw [hrun]
          show ms2.2.stepCalls ≤ s.stepCalls + (fuel + 1)
          omega
        · rw [hrun]
          intro ha
          exact auditConsistent_append h1 h2 ha

lemma stepF_const (card sse : Py) (i : Nat) (s : FlowState)
    (hd : isDict card = true) (ht : truthy card = true)
    (hcode : (pyGet card "code").isSome = false)
    (hm : hasUserMessage sse = true) (hsd : isDict sse = true) :
    stepF (constCardEnv card sse) i s = .ok
      { s with stepCalls := s.stepCalls + 1,
               seen_cards := s.seen_cards ++ [card],
               seen_card_signatures := s.seen_card_signatures ++ [card_signature card],
               seen_sse := s.seen_sse ++ [sse],
               last_sse := some sse } := by
  have hpc : pendingCardOf card = some card := by
    unfold pendingCardOf unwrapApi
    simp [hd, hcode, ht]
  unfold stepF constCardEnv
  dsimp only
  rw [show refreshState Py.none { s with stepCalls := s.stepCalls + 1 }
      = { s with stepCalls := s.stepCalls + 1 } from rfl]
  rw [hpc]
  dsimp only
  rw [if_pos hm, if_pos hsd]

lemma runLoop_const (card sse : Py) (desc : String) (maxSteps : Nat)
    (hd : isDict card = true) (ht : truthy card = true)
    (hcode : (pyGet card "code").isSome = false)
    (hm : hasUserMessage sse = true) (hsd : isDict sse = true) :
    ∀ (fuel i : Nat) (s : FlowState),
    ∃ s', runLoop (constCardEnv card sse) (fun _ => false) desc maxSteps fuel i s
        = .maxStepsFailure (failMsg desc maxSteps s') s'
      ∧ s'.seen_card_signatures = s.seen_card_signatures
          ++ List.replicate fuel (card_signature card)
      ∧ s'.session_id = s.session_id ∧ s'.matter_id = s.matter_id := by
  intro fuel
  induction fuel with
  | zero => intro i s; exact ⟨s, by rw [runLoop], by simp, rfl, rfl⟩
  | succ fuel ih =>
    intro i s
    rw [runLoop]
    rw [if_neg (by simp : ¬ (false = true))]
    rw [stepF_const card sse i s hd ht hcode hm hsd]
    obtain ⟨s', h1, h2, h3, h4⟩ := ih (i + 1)
      { s with stepCalls := s.stepCalls + 1,
               seen_cards := s.seen_cards ++ [card],
               seen_card_signatures := s.seen_card_signatures ++ [card_signature card],
               seen_sse := s.seen_sse ++ [sse],
               last_sse := some sse }
    refine ⟨s', h1, ?_, h3, h4⟩
    rw [h2]
    simp [List.replicate_succ]

/-- Claim C4, amended: the drive loop records each resumed card's
structural signature in `seen_card_signatures` (the audit-trail
invariant is preserved by every run), but no repeated-signature
threshold exists: with any environment that reports the same pending
card on every step and a never-true predicate, the loop resumes the
identical card `max_steps` times — recording the same signature
`max_steps` times — and then fails with the generic max-steps
`AssertionError`, never with a stuck-workflow failure. -/
theorem c4_signatures_recorded_not_enforced :
    (∀ (env : ClientEnv) (pred : FlowState → Bool) (maxSteps : Nat) (desc : String)
      (s0 : FlowState), auditConsistent s0 →
      auditConsistent (run_until env pred maxSteps desc s0).state)
    ∧ (∀ (card sse : Py) (maxSteps : Nat) (desc sid : String),
        isDict card = true → truthy card = true → (pyGet card "code").isSome = false →
        hasUserMessage sse = true → isDict sse = true →
        ∃ s', run_until (constCardEnv card sse) (fun _ => false) maxSteps desc (initFlow sid)
            = .maxStepsFailure (failMsg desc maxSteps s') s'
          ∧ s'.seen_card_signatures = List.replicate maxSteps (card_signature card)) := by
  constructor
  · intro env pred maxSteps desc s0 h
    exact (runLoop_spec env pred desc maxSteps maxSteps 1 s0).2.2.2.2 h
  · intro card sse maxSteps desc sid hd ht hcode hm hsd
    obtain ⟨s', h1, h2, _, _⟩ :=
      runLoop_const card sse desc maxSteps hd ht hcode hm hsd maxSteps 1 (initFlow sid)
    exact ⟨s', h1, by simpa using h2⟩

/-- Witness for C4: ten identical cards are resumed and recorded, and
the run still ends in the max-steps failure. -/
theorem c4_witness :
    ∃ s', run_until (constCardEnv (.dict [("skill_id", .str "s"), ("questions", .list [])])
        userMessageSse) (fun _ => false) 10 "target condition" (initFlow "sess-1")
      = .maxStepsFailure (failMsg "target condition" 10 s') s'
    ∧ s'.seen_card_signatures = List.replicate 10
        (card_signature (.dict [("skill_id", .str "s"), ("questions", .list [])])) :=
  c4_signatures_recorded_not_enforced.2
    (.dict [("skill_id", .str "s"), ("questions", .list [])]) userMessageSse
    10 "target condition" "sess-1" rfl rfl rfl rfl rfl

/-- Counterexample to C4 as stated: the same card signature recurs ten
times — far beyond any small threshold — yet the loop keeps iterating
to its step budget and ends in the ordinary max-steps failure; no
stuck-workflow hard failure is ever raised. -/
theorem c4_counterexample :
    (run_until (constCardEnv (.dict [("skill_id", .str "s"), ("questions", .list [])])
        userMessageSse) (fun _ => false) 10 "target condition"
        (initFlow "sess-1")).isMaxStepsFailure = true
    ∧ (run_until (constCardEnv (.dict [("skill_id", .str "s"), ("questions", .list [])])
        userMessageSse) (fun _ => false) 10 "target condition"
        (initFlow "sess-1")).state.seen_card_signatures
      = List.replicate 10 (card_signature
          (.dict [("skill_id", .str "s"), ("questions", .list [])]))
    ∧ 3 < (run_until (constCardEnv (.dict [("skill_id", .str "s"), ("questions", .list [])])
        userMessageSse) (fun _ => false) 10 "target condition"
        (initFlow "sess-1")).state.seen_card_signatures.length := by
  refine ⟨rfl, by decide, by decide⟩

/-- Claim C5, amended: `run_until` runs at most `max_steps` steps — it
returns `reached` as soon as the predicate holds (having executed only
the preceding steps), and otherwise raises the diagnostic
`AssertionError` whose message carries the description, the step
budget, the session id and the matter id — but not the recorded card
signatures (see the counterexample). -/
theorem c5_run_until_budget :
    ∀ (env : ClientEnv) (pred : FlowState → Bool) (maxSteps : Nat) (desc : String)
      (s0 : FlowState),
    (pred s0 = true → 0 < maxSteps →
      run_until env pred maxSteps desc s0 = .reached 1 s0)
    ∧ (∀ j s', run_until env pred maxSteps desc s0 = .reached j s' →
        1 ≤ j ∧ j ≤ maxSteps ∧ pred s' = true
          ∧ s'.stepCalls = s0.stepCalls + (j - 1))
    ∧ (∀ msg s', run_until env pred maxSteps desc s0 = .maxStepsFailure msg s' →
        msg = failMsg desc maxSteps s' ∧ s'.stepCalls = s0.stepCalls + maxSteps
          ∧ s'.session_id = s0.session_id)
    ∧ (run_until env pred maxSteps desc s0).state.stepCalls
        ≤ s0.stepCalls + maxSteps := by
  intro env pred maxSteps desc s0
  have h := runLoop_spec env pred desc maxSteps maxSteps 1 s0
  refine ⟨fun hp hm => h.1 hp hm, ?_, ?_, h.2.2.2.1⟩
  · intro j s' hr
    obtain ⟨a, b, c, d, _, _⟩ := h.2.1 j s' hr
    refine ⟨a, by omega, c, by omega⟩
  · intro msg s' hr
    obtain ⟨a, b, c, _⟩ := h.2.2.1 msg s' hr
    exact ⟨a, b, c⟩

/-- Witness for C5: a predicate that is true at once makes `run_until`
return `reached` at step 1 with no steps executed. -/
theorem c5_witness :
    run_until (constCardEnv (.dict [("skill_id", .str "s")]) userMessageSse)
      (fun _ => true) 5 "x" (initFlow "s") = .reached 1 (initFlow "s") :=
  (c5_run_until_budget (constCardEnv (.dict [("skill_id", .str "s")]) userMessageSse)
    (fun _ => true) 5 "x" (initFlow "s")).1 rfl (by decide)

/-- Counterexample to C5 as stated: two exhausted runs that saw
different cards (hence recorded different signature trails) raise
`AssertionError`s with the *identical* message — the message carries
the description, step budget, session id and matter id only, so it
cannot include the last few card signatures. -/
theorem c5_counterexample :
    (run_until (constCardEnv (.dict [("skill_id", .str "a"), ("questions", .list [])])
        userMessageSse) (fun _ => false) 2 "target condition" (initFlow "s")).msg
      = "Failed to reach target condition after 2 steps (session_id=s, matter_id=None)"
    ∧ (run_until (constCardEnv (.dict [("skill_id", .str "b"), ("questions", .list [])])
        userMessageSse) (fun _ => false) 2 "target condition" (initFlow "s")).msg
      = "Failed to reach target condition after 2 steps (session_id=s, matter_id=None)"
    ∧ (run_until (constCardEnv (.dict [("skill_id", .str "a"), ("questions", .list [])])
        userMessageSse) (fun _ => false) 2 "target condition" (initFlow "s")).state.seen_card_signatures
      ≠ (run_until (constCardEnv (.dict [("skill_id", .str "b"), ("questions", .list [])])
        userMessageSse) (fun _ => false) 2 "target condition" (initFlow "s")).state.seen_card_signatures
    ∧ (run_until (constCardEnv (.dict [("skill_id", .str "a"), ("questions", .list [])])
        userMessageSse) (fun _ => false) 2 "target condition" (initFlow "s")).state.seen_card_signatures
      ≠ [] := by
  refine ⟨rfl, rfl, by decide, by decide⟩

/-! ## Attachment-field theorems (C10) -/

/-- Claim C10, amended: a question whose field key is exactly
`attachment_file_ids`, with no applicable override and an input type
outside the boolean/select/multi-select families, always receives an
answer whose value is the non-empty declared default, else the uploaded
file-id list, else `[]` — never omitted and never null, even when
optional with no uploads.  (With a boolean/select/multi-select input
type the earlier branch wins and the value need not be a list — see the
counterexample.) -/
theorem c10_attachment_always_answered (skill : String) (ov : List (String × Py))
    (up : List String) (q : Py) (hd : isDict q = true)
    (hfk : fieldKeyOf q = "attachment_file_ids")
    (hov : resolve_override_value (fieldKeyOf q) ov = Py.none)
    (hit : inputTypeOf q ∉ nonFileInputTypes) :
    resolveQuestion skill ov up q
        = some ("attachment_file_ids", attachmentValue (defaultOf q) up)
    ∧ attachmentValue (defaultOf q) up ≠ Py.none := by
  have hanv : attachmentValue (defaultOf q) up ≠ Py.none := by
    unfold attachmentValue
    split
    · exact hasDefault_ne_none (by assumption)
    split <;> exact nofun
  have hfk2 : fieldKeyOf q ≠ "" := by rw [hfk]; decide
  simp only [nonFileInputTypes, List.mem_cons, List.mem_singleton, not_or,
    List.not_mem_nil] at hit
  have h1 : inputTypeOf q ∉ ["boolean", "bool"] := by
    simp only [List.mem_cons, List.mem_singleton, List.not_mem_nil, not_or]; tauto
  have h2 : inputTypeOf q ∉ ["select", "single_select", "single_choice"] := by
    simp only [List.mem_cons, List.mem_singleton, List.not_mem_nil, not_or]; tauto
  have h3 : inputTypeOf q ∉ ["multi_select", "multiple_select"] := by
    simp only [List.mem_cons, List.mem_singleton, List.not_mem_nil, not_or]; tauto
  have hval : resolvedValue skill up q = attachmentValue (defaultOf q) up := by
    unfold resolvedValue questionValue attachmentValue
    rw [hfk]
    simp [h1, h2, h3]
  refine ⟨?_, hanv⟩
  rw [resolveQuestion_eq skill ov up q hd hfk2, hov]
  simp [hfk, hval, hanv]

/-- Witness for C10: an optional text-typed `attachment_file_ids`
question with one uploaded file is answered with `["f1"]`. -/
theorem c10_witness :
    resolveQuestion "" [] ["f1"] (.dict [("field_key", .str "attachment_file_ids"),
        ("input_type", .str "text"), ("required", .bool false)])
      = some ("attachment_file_ids", .list [.str "f1"]) :=
  ((c10_attachment_always_answered "" [] ["f1"]
    (.dict [("field_key", .str "attachment_file_ids"), ("input_type", .str "text"),
      ("required", .bool false)])
    rfl rfl rfl (by decide)).1).trans rfl

/-- Counterexample to C10 as stated: an `attachment_file_ids` question
declared with `input_type = "boolean"` takes the boolean branch and is
answered with `True`, which is not a list. -/
theorem c10_counterexample :
    auto_answer_card (.dict [("questions", .list [.dict
        [("field_key", .str "attachment_file_ids"), ("input_type", .str "boolean"),
         ("required", .bool false)]])]) [] []
      = .dict [("answers", .list [.dict [("field_key", .str "attachment_file_ids"),
          ("value", .bool true)]])]
    ∧ isList (.bool true) = false := ⟨rfl, rfl⟩
